import Mathlib

set_option maxHeartbeats 1000000

/-!
Shallow embedding of the offline-first report store of
`src/lib/appwrite.ts` (the `OutageProvider` React context and the
Appwrite helper functions it calls), together with proofs of the
behavioural properties stated in the specification.

Modelling conventions:
* ISO 8601 date strings are modelled by their epoch-millisecond value
  (`Int`); the empty string (falsy in JavaScript) is modelled by `none`
  where the source applies a `||` fallback to a date field.
* JavaScript numbers used as coordinates are modelled by real numbers;
  counters are modelled by `Int`.
* The JavaScript object used as the confirmation ledger is modelled by
  an association list together with first-match lookup.
* `AsyncStorage` is modelled by two extra fields of the store state
  (`storedOutages`, `storedConfirms`) holding the persisted copies.
* Remote calls are modelled by parameters: the reconciliation pass and
  the success branch of `addOutage` take the remote payload as input,
  and the fire-and-forget calls of `confirmOutage`/`markRestored`
  (whose results the source discards) are omitted.
-/

namespace CoupureAlert

/-- Local report record (`interface Outage` in `src/lib/appwrite.ts`). -/
structure Outage where
  id : String
  type : String
  latitude : ℝ
  longitude : ℝ
  quartier : String
  ville : String
  region : String
  date : Int
  confirmations : Int
  photoUri : Option String
  synced : Bool
  estRetablie : Bool
  dateRetablissement : Option Int

/-- Remote report record (`interface OutageData` in `src/lib/appwrite.ts`). -/
structure OutageData where
  id : String
  type : String
  latitude : ℝ
  longitude : ℝ
  quartier : String
  ville : String
  region : String
  confirmations : Int
  photoUri : Option String
  estRetablie : Bool
  dateRetablissement : Option Int
  createdAt : Option Int
  userId : String

/-- Mapping of a remote record to the local shape (`remoteToLocal`).
The JavaScript `||` fallbacks are modelled on each field: an empty
string collapses to the sentinel, a zero confirmation count collapses
to `1`, a missing `createdAt` collapses to the current time. -/
def remoteToLocal (now : Int) (s : OutageData) : Outage :=
  { id := s.id
    type := s.type
    latitude := s.latitude
    longitude := s.longitude
    quartier := if s.quartier = "" then "N/A" else s.quartier
    ville := if s.ville = "" then "N/A" else s.ville
    region := if s.region = "" then "N/A" else s.region
    date := s.createdAt.getD now
    confirmations := if s.confirmations = 0 then 1 else s.confirmations
    photoUri := if s.photoUri = some "" then none else s.photoUri
    synced := true
    estRetablie := s.estRetablie
    dateRetablissement := s.dateRetablissement }

/-- First-match lookup in a JavaScript-object-as-association-list,
modelling `confirmedIds[id]`. -/
def objGet (k : String) : List (String × String) → Option String
  | [] => none
  | p :: rest => if p.1 = k then some p.2 else objGet k rest

/-- Key update on a JavaScript object, modelling the spread
`\x7b...confirmedIds, [id]: today\x7d`: an existing key is overwritten in
place, a new key is appended. -/
def objSet (m : List (String × String)) (k v : String) : List (String × String) :=
  if m.any (fun p => p.1 = k) then m.map (fun p => if p.1 = k then (k, v) else p)
  else m ++ [(k, v)]

/-- State of one `OutageProvider` instance: the in-memory collection and
ledger plus their persisted copies in `AsyncStorage`. -/
structure StoreState where
  outages : List Outage
  confirmedIds : List (String × String)
  storedOutages : List Outage
  storedConfirms : List (String × String)

/-- The `saveOutages` helper: update the in-memory collection and write
it through to `AsyncStorage` under `OUTAGES_KEY`. -/
def saveOutages (s : StoreState) (l : List Outage) : StoreState :=
  { s with outages := l, storedOutages := l }

/-- The `saveConfirmations` helper: update the in-memory ledger and
write it through to `AsyncStorage` under `CONFIRMATIONS_KEY`. -/
def saveConfirmations (s : StoreState) (m : List (String × String)) : StoreState :=
  { s with confirmedIds := m, storedConfirms := m }

/-- Daily-guard check (`canConfirm`): true unless the ledger maps the
id to today's device-local date string. -/
def canConfirm (s : StoreState) (today id : String) : Bool :=
  decide (objGet id s.confirmedIds ≠ some today)

/-- The `confirmOutage` operation. Returns the boolean result together
with the new state. The best-effort remote call (whose failure the
source swallows) does not affect the local state and is omitted. -/
def confirmOutage (s : StoreState) (today id : String) : Bool × StoreState :=
  if canConfirm s today id = false then (false, s)
  else
    let updated := s.outages.map fun o =>
      if o.id = id then { o with confirmations := o.confirmations + 1 } else o
    let newConfirms := objSet s.confirmedIds id today
    (true, saveConfirmations (saveOutages s updated) newConfirms)

/-- Caller-supplied fields of a new report (the `Omit<...>` input type
of `addOutage`). -/
structure NewOutageInput where
  type : String
  latitude : ℝ
  longitude : ℝ
  quartier : String
  ville : String
  region : String
  date : Int
  photoUri : Option String

/-- Temporary identifier generated in the offline branch of
`addOutage`: `Date.now().toString()` followed by a random suffix. -/
def tempIdOf (now : Int) (rnd : String) : String :=
  now.repr ++ rnd

/-- The record that `addOutage` prepends: the mapped remote record when
the create call succeeded (`remote = some created`), otherwise a
local-only record with a temporary id, one confirmation, unsynced and
unresolved. -/
def newOutageOf (input : NewOutageInput) (remote : Option OutageData)
    (now : Int) (rnd : String) : Outage :=
  match remote with
  | some created => remoteToLocal now created
  | none =>
      { id := tempIdOf now rnd
        type := input.type
        latitude := input.latitude
        longitude := input.longitude
        quartier := input.quartier
        ville := input.ville
        region := input.region
        date := input.date
        confirmations := 1
        photoUri := input.photoUri
        synced := false
        estRetablie := false
        dateRetablissement := none }

/-- The `addOutage` operation: prepend the new record and persist. -/
def addOutage (s : StoreState) (input : NewOutageInput) (remote : Option OutageData)
    (now : Int) (rnd : String) : StoreState :=
  saveOutages s (newOutageOf input remote now rnd :: s.outages)

/-- The `markRestored` operation: set the terminal flag and resolution
timestamp on every record with the given id, then persist. -/
def markRestored (s : StoreState) (id : String) (now : Int) : StoreState :=
  saveOutages s (s.outages.map fun o =>
    if o.id = id then { o with estRetablie := true, dateRetablissement := some now } else o)

/-- The `removeOutage` operation: drop the record from the in-memory
collection only; the source does not write `AsyncStorage` here. -/
def removeOutage (s : StoreState) (id : String) : StoreState :=
  { s with outages := s.outages.filter fun o => decide (o.id ≠ id) }

/-- Replacement step of the reconciliation pass: a local record whose
id matches a remote record is replaced by the remote version marked
`synced`, otherwise kept. -/
def replaceWith (mapped : List Outage) (o : Outage) : Outage :=
  match mapped.find? (fun s => decide (s.id = o.id)) with
  | some sv => { sv with synced := true }
  | none => o

/-- The reconciliation merge inside `fetchFromAppwrite`, as a function
of the local collection and the already-mapped remote collection.
`Set.has` on the id set is modelled by list membership. -/
def mergeOutages (loc mapped : List Outage) : List Outage :=
  let localIds := loc.map fun o => o.id
  let updatedLocal := loc.map (replaceWith mapped)
  let newFromServer := mapped.filter fun o => decide (o.id ∉ localIds)
  updatedLocal ++ newFromServer

/-- The `fetchFromAppwrite` reconciliation pass in its success branch:
map the remote records, merge, persist the merged collection. -/
def fetchFromAppwrite (s : StoreState) (serv : List OutageData) (now : Int) : StoreState :=
  saveOutages s (mergeOutages s.outages (serv.map (remoteToLocal now)))

/-- One store operation, with the environment data each one consumes
(clock readings, random suffix, remote payloads) carried as fields. -/
inductive Op where
  | add (input : NewOutageInput) (remote : Option OutageData) (now : Int) (rnd : String)
  | confirm (today id : String)
  | restore (id : String) (now : Int)
  | remove (id : String)
  | reconcile (serv : List OutageData) (now : Int)

/-- Apply one operation to the store state. -/
def applyOp (s : StoreState) : Op → StoreState
  | .add input remote now rnd => addOutage s input remote now rnd
  | .confirm today id => (confirmOutage s today id).2
  | .restore id now => markRestored s id now
  | .remove id => removeOutage s id
  | .reconcile serv now => fetchFromAppwrite s serv now

/-- Apply a sequence of operations from left to right. -/
def applyOps (s : StoreState) (ops : List Op) : StoreState :=
  ops.foldl applyOp s

/-- The `getRecentOutages` query: unresolved records dated strictly
after `now` minus the window. -/
def getRecentOutages (s : StoreState) (now hours : Int) : List Outage :=
  let cutoff := now - hours * 60 * 60 * 1000
  s.outages.filter fun o => decide (cutoff < o.date) && !o.estRetablie

/-- The `getRecentOutages` query at its default window of 24 hours. -/
def getRecentOutagesDefault (s : StoreState) (now : Int) : List Outage :=
  getRecentOutages s now 24

open Real in
/-- Four-quadrant arctangent, modelling `Math.atan2(y, x)`. -/
noncomputable def atan2 (y x : ℝ) : ℝ :=
  if 0 < x then arctan (y / x)
  else if x < 0 ∧ 0 ≤ y then arctan (y / x) + π
  else if x < 0 ∧ y < 0 then arctan (y / x) - π
  else if x = 0 ∧ 0 < y then π / 2
  else if x = 0 ∧ y < 0 then -(π / 2)
  else 0

open Real in
/-- The `getDistanceKm` Haversine distance with Earth radius 6371 km,
over real numbers. -/
noncomputable def getDistanceKm (lat1 lon1 lat2 lon2 : ℝ) : ℝ :=
  let R : ℝ := 6371
  let dLat := (lat2 - lat1) * π / 180
  let dLon := (lon2 - lon1) * π / 180
  let a := sin (dLat / 2) * sin (dLat / 2) +
    cos (lat1 * π / 180) * cos (lat2 * π / 180) *
    sin (dLon / 2) * sin (dLon / 2)
  let c := 2 * atan2 (sqrt a) (sqrt (1 - a))
  R * c

open Classical in
/-- The `getNearbyOutages` query: unresolved records within the
trailing 24 hours whose Haversine distance from the query point is at
most `radiusKm`. -/
noncomputable def getNearbyOutages (s : StoreState) (lat lon radiusKm : ℝ)
    (now : Int) : List Outage :=
  let cutoff := now - 24 * 60 * 60 * 1000
  s.outages.filter fun o =>
    if o.estRetablie then false
    else if o.date < cutoff then false
    else decide (getDistanceKm lat lon o.latitude o.longitude ≤ radiusKm)

/-- The `getNearbyOutages` query at its default radius of 20 km. -/
noncomputable def getNearbyOutagesDefault (s : StoreState) (lat lon : ℝ)
    (now : Int) : List Outage :=
  getNearbyOutages s lat lon 20 now

/-! ### Ledger lemmas -/

theorem objGet_append_of_none (k : String) (m1 m2 : List (String × String))
    (h : objGet k m1 = none) : objGet k (m1 ++ m2) = objGet k m2 := by
  induction m1 with
  | nil => rfl
  | cons p rest ih =>
    by_cases hp : p.1 = k
    · simp [objGet, hp] at h
    · simp only [objGet, hp, if_false, List.cons_append, if_neg hp] at h ⊢
      exact ih h

theorem objGet_map_overwrite (k v : String) (m : List (String × String))
    (h : m.any (fun p => decide (p.1 = k)) = true) :
    objGet k (m.map fun p => if p.1 = k then (k, v) else p) = some v := by
  induction m with
  | nil => simp at h
  | cons p rest ih =>
    by_cases hp : p.1 = k
    · simp [objGet, hp]
    · have hrest : rest.any (fun p => decide (p.1 = k)) = true := by
        simpa [hp] using h
      simp [objGet, hp, ih hrest]

theorem objGet_eq_none_of_not_any (k : String) (m : List (String × String))
    (h : m.any (fun p => decide (p.1 = k)) = false) : objGet k m = none := by
  induction m with
  | nil => rfl
  | cons p rest ih =>
    simp only [List.any_cons, Bool.or_eq_false_iff, decide_eq_false_iff_not] at h
    simp [objGet, h.1, ih h.2]

theorem objGet_objSet_self (m : List (String × String)) (k v : String) :
    objGet k (objSet m k v) = some v := by
  unfold objSet
  split
  · exact objGet_map_overwrite k v m (by assumption)
  · next h =>
    rw [objGet_append_of_none k m _
      (objGet_eq_none_of_not_any k m (Bool.not_eq_true _ ▸ h))]
    simp [objGet]

/-- Branch characterization of `confirmOutage`: the daily guard either
blocks the call, or the call bumps the matching records, records today
in the ledger and persists both. -/
theorem confirmOutage_eq (s : StoreState) (today id : String) :
    confirmOutage s today id =
      if objGet id s.confirmedIds = some today then (false, s)
      else
        (true, StoreState.mk
          (s.outages.map fun o =>
            if o.id = id then { o with confirmations := o.confirmations + 1 } else o)
          (objSet s.confirmedIds id today)
          (s.outages.map fun o =>
            if o.id = id then { o with confirmations := o.confirmations + 1 } else o)
          (objSet s.confirmedIds id today)) := by
  by_cases h : objGet id s.confirmedIds = some today <;>
    simp [confirmOutage, canConfirm, saveOutages, saveConfirmations, h]

/-! ### C1: the daily guard -/

/-- C1. If the ledger already maps the id to today's date string,
`confirmOutage` returns false and changes nothing; the second of two
same-day calls always returns false and leaves the state of the first
call unchanged; and when the first call was not blocked, the two calls
together bump the matching records exactly once. -/
theorem confirmOutage_daily_guard (s : StoreState) (today id : String) :
    (objGet id s.confirmedIds = some today → confirmOutage s today id = (false, s)) ∧
    confirmOutage (confirmOutage s today id).2 today id =
      (false, (confirmOutage s today id).2) ∧
    (objGet id s.confirmedIds ≠ some today →
      (confirmOutage (confirmOutage s today id).2 today id).2.outages =
        s.outages.map fun o =>
          if o.id = id then { o with confirmations := o.confirmations + 1 } else o) := by
  refine ⟨fun h => by rw [confirmOutage_eq, if_pos h], ?_, ?_⟩
  · by_cases h : objGet id s.confirmedIds = some today
    · have h1 : confirmOutage s today id = (false, s) := by rw [confirmOutage_eq, if_pos h]
      rw [h1, h1]
    · have h1 := confirmOutage_eq s today id
      rw [if_neg h] at h1
      rw [h1]
      rw [confirmOutage_eq, if_pos (objGet_objSet_self s.confirmedIds id today)]
  · intro h
    by_cases h2 : objGet id ((confirmOutage s today id).2).confirmedIds = some today
    · have h1 := confirmOutage_eq s today id
      rw [if_neg h] at h1
      rw [confirmOutage_eq, if_pos h2, h1]
    · exfalso
      have h1 := confirmOutage_eq s today id
      rw [if_neg h] at h1
      rw [h1] at h2
      exact h2 (objGet_objSet_self s.confirmedIds id today)

/-- C1 witness: on a concrete state whose ledger already maps the id to
today, the call is a blocked no-op. -/
theorem confirmOutage_daily_guard_witness :
    objGet "a" (StoreState.mk [] [("a", "d")] [] []).confirmedIds = some "d" ∧
    confirmOutage (StoreState.mk [] [("a", "d")] [] []) "d" "a" =
      (false, StoreState.mk [] [("a", "d")] [] []) :=
  ⟨rfl, (confirmOutage_daily_guard (StoreState.mk [] [("a", "d")] [] []) "d" "a").1 rfl⟩

/-! ### C10: confirming an id that has no record -/

/-- C10. Confirming an id that is absent from the collection and not
yet confirmed today returns true, leaves the collection's records
unchanged, still writes today's date against the id in the ledger, and
makes a second same-day call return false. -/
theorem confirmOutage_missing_id (s : StoreState) (today id : String)
    (h1 : ∀ o ∈ s.outages, o.id ≠ id)
    (h2 : objGet id s.confirmedIds ≠ some today) :
    (confirmOutage s today id).1 = true ∧
    (confirmOutage s today id).2.outages = s.outages ∧
    objGet id (confirmOutage s today id).2.confirmedIds = some today ∧
    confirmOutage (confirmOutage s today id).2 today id =
      (false, (confirmOutage s today id).2) := by
  have heq := confirmOutage_eq s today id
  rw [if_neg h2] at heq
  have hmap : (s.outages.map fun o =>
      if o.id = id then { o with confirmations := o.confirmations + 1 } else o) =
      s.outages := by
    rw [List.map_congr_left fun o ho => if_neg (h1 o ho), List.map_id']
  refine ⟨by rw [heq], by rw [heq]; exact hmap, ?_, ?_⟩
  · rw [heq]
    exact objGet_objSet_self s.confirmedIds id today
  · rw [heq, confirmOutage_eq, if_pos (objGet_objSet_self s.confirmedIds id today)]

/-- C10 witness at a concrete state with an empty collection and a
ledger entry from another day. -/
theorem confirmOutage_missing_id_witness :
    (∀ o ∈ (StoreState.mk [] [("a", "y")] [] []).outages, o.id ≠ "a") ∧
    objGet "a" (StoreState.mk [] [("a", "y")] [] []).confirmedIds ≠ some "d" ∧
    (confirmOutage (StoreState.mk [] [("a", "y")] [] []) "d" "a").1 = true :=
  ⟨fun o ho => absurd ho (List.not_mem_nil o),
   by decide,
   (confirmOutage_missing_id (StoreState.mk [] [("a", "y")] [] []) "d" "a"
     (fun o ho => absurd ho (List.not_mem_nil o)) (by decide)).1⟩

/-! ### C3: addOutage never fails -/

theorem length_toDigitsCore_ge (b : Nat) :
    ∀ (f n : Nat) (l : List Char), l.length ≤ (Nat.toDigitsCore b f n l).length := by
  intro f
  induction f with
  | zero => intro n l; simp [Nat.toDigitsCore]
  | succ f ih =>
    intro n l
    simp only [Nat.toDigitsCore]
    split
    · simp
    · exact le_trans (by simp) (ih _ _)

theorem one_le_length_toDigits (b n : Nat) : 1 ≤ (Nat.toDigits b n).length := by
  unfold Nat.toDigits
  simp only [Nat.toDigitsCore]
  split
  · simp
  · exact le_trans (by simp) (length_toDigitsCore_ge b n _ _)

theorem one_le_length_natRepr (n : Nat) : 1 ≤ (Nat.repr n).length :=
  one_le_length_toDigits 10 n

theorem one_le_length_intRepr (i : Int) : 1 ≤ (Int.repr i).length := by
  cases i with
  | ofNat m => exact one_le_length_natRepr m
  | negSucc m =>
    show 1 ≤ ("-" ++ Nat.repr (m + 1)).length
    rw [String.length_append]
    have := one_le_length_natRepr (m + 1)
    omega

/-- A generated temporary identifier is never the empty string. -/
theorem tempIdOf_ne_empty (now : Int) (rnd : String) : tempIdOf now rnd ≠ "" := by
  intro h
  have hl := congrArg String.length h
  rw [tempIdOf, String.length_append] at hl
  have := one_le_length_intRepr now
  have h0 : String.length "" = 0 := rfl
  rw [h0] at hl
  omega

/-- C3. `addOutage` always grows the collection by exactly one record,
the new record is the first element, and in the remote-failure branch
the new record carries a non-empty temporary identifier, one
confirmation, `synced = false` and unresolved state. -/
theorem addOutage_spec (s : StoreState) (input : NewOutageInput)
    (remote : Option OutageData) (now : Int) (rnd : String) :
    (addOutage s input remote now rnd).outages.length = s.outages.length + 1 ∧
    (addOutage s input remote now rnd).outages =
      newOutageOf input remote now rnd :: s.outages ∧
    (newOutageOf input none now rnd).id = tempIdOf now rnd ∧
    (newOutageOf input none now rnd).id ≠ "" ∧
    (newOutageOf input none now rnd).confirmations = 1 ∧
    (newOutageOf input none now rnd).synced = false ∧
    (newOutageOf input none now rnd).estRetablie = false ∧
    (newOutageOf input none now rnd).dateRetablissement = none :=
  ⟨by simp [addOutage, saveOutages], rfl, rfl, tempIdOf_ne_empty now rnd,
   rfl, rfl, rfl, rfl⟩

/-! ### C8: persistence synchronization (corrected) -/

/-- True for the operations that persist their in-memory update;
`removeOutage` is the one mutator that does not. -/
def opPersists : Op → Bool
  | .remove _ => false
  | _ => true

/-- C8 (amended). Every mutating operation except `removeOutage` leaves
the persisted collection identical to the in-memory collection; the
guard-blocked branch of `confirmOutage` changes nothing, so the
synchronization carries over from the pre-state. -/
theorem persisted_matches_memory (s : StoreState) (op : Op)
    (h : s.storedOutages = s.outages) (hop : opPersists op = true) :
    (applyOp s op).storedOutages = (applyOp s op).outages := by
  cases op with
  | add input remote now rnd => rfl
  | confirm today id =>
    show ((confirmOutage s today id).2).storedOutages =
      ((confirmOutage s today id).2).outages
    rw [confirmOutage_eq]
    by_cases hg : objGet id s.confirmedIds = some today
    · rw [if_pos hg]; exact h
    · rw [if_neg hg]
  | restore id now => rfl
  | remove id => simp [opPersists] at hop
  | reconcile serv now => rfl

/-- C8 witness: a restore call on a synchronized concrete state keeps
the persisted copy identical. -/
theorem persisted_matches_memory_witness :
    (StoreState.mk [] [] [] []).storedOutages = (StoreState.mk [] [] [] []).outages ∧
    opPersists (Op.restore "a" 0) = true ∧
    (applyOp (StoreState.mk [] [] [] []) (Op.restore "a" 0)).storedOutages =
      (applyOp (StoreState.mk [] [] [] []) (Op.restore "a" 0)).outages :=
  ⟨rfl, rfl, persisted_matches_memory (StoreState.mk [] [] [] []) (Op.restore "a" 0) rfl rfl⟩

/-- A concrete record used by the counterexamples below. -/
def cexOutage : Outage :=
  { id := "a"
    type := "water"
    latitude := 0
    longitude := 0
    quartier := "q"
    ville := "v"
    region := "r"
    date := 0
    confirmations := 2
    photoUri := none
    synced := true
    estRetablie := false
    dateRetablissement := none }

/-- C8 counterexample: after `removeOutage` the persisted collection
still holds the removed record, so it differs from the in-memory
collection. -/
theorem persisted_matches_memory_cex :
    ¬ ((applyOp (StoreState.mk [cexOutage] [] [cexOutage] []) (Op.remove "a")).storedOutages =
      (applyOp (StoreState.mk [cexOutage] [] [cexOutage] []) (Op.remove "a")).outages) := by
  intro h
  have hl := congrArg List.length h
  simp [applyOp, removeOutage, cexOutage] at hl

/-! ### C7: the nearby query -/

/-- C7. `getNearbyOutages` returns exactly the unresolved records of
the collection dated within the trailing 24 hours whose Haversine
distance from the query point is at most the radius; the default
radius is 20 km. -/
theorem getNearbyOutages_spec (s : StoreState) (lat lon radiusKm : ℝ)
    (now : Int) (o : Outage) :
    (o ∈ getNearbyOutages s lat lon radiusKm now ↔
      o ∈ s.outages ∧ o.estRetablie = false ∧
      now - 24 * 60 * 60 * 1000 ≤ o.date ∧
      getDistanceKm lat lon o.latitude o.longitude ≤ radiusKm) ∧
    getNearbyOutagesDefault s lat lon now = getNearbyOutages s lat lon 20 now := by
  refine ⟨?_, rfl⟩
  simp only [getNearbyOutages, List.mem_filter]
  constructor
  · rintro ⟨hm, hp⟩
    refine ⟨hm, ?_⟩
    split at hp
    · exact absurd hp (by simp)
    · split at hp
      · exact absurd hp (by simp)
      · next hres hdate =>
        exact ⟨Bool.not_eq_true _ ▸ hres, Int.not_lt.mp hdate, of_decide_eq_true hp⟩
  · rintro ⟨hm, h1, h2, h3⟩
    refine ⟨hm, ?_⟩
    rw [if_neg (by simp [h1]), if_neg (Int.not_lt.mpr h2)]
    exact decide_eq_true h3

/-! ### C9: distance symmetry and self-distance -/

open Real in
/-- C9. The Haversine distance is symmetric in its two coordinate
pairs, and the distance from a point to itself is exactly zero. -/
theorem getDistanceKm_symm_self (lat1 lon1 lat2 lon2 : ℝ) :
    getDistanceKm lat1 lon1 lat2 lon2 = getDistanceKm lat2 lon2 lat1 lon1 ∧
    getDistanceKm lat1 lon1 lat1 lon1 = 0 := by
  constructor
  · show 6371 * (2 * atan2
        (sqrt (sin ((lat2 - lat1) * π / 180 / 2) * sin ((lat2 - lat1) * π / 180 / 2) +
          cos (lat1 * π / 180) * cos (lat2 * π / 180) *
          sin ((lon2 - lon1) * π / 180 / 2) * sin ((lon2 - lon1) * π / 180 / 2)))
        (sqrt (1 - (sin ((lat2 - lat1) * π / 180 / 2) * sin ((lat2 - lat1) * π / 180 / 2) +
          cos (lat1 * π / 180) * cos (lat2 * π / 180) *
          sin ((lon2 - lon1) * π / 180 / 2) * sin ((lon2 - lon1) * π / 180 / 2))))) =
      6371 * (2 * atan2
        (sqrt (sin ((lat1 - lat2) * π / 180 / 2) * sin ((lat1 - lat2) * π / 180 / 2) +
          cos (lat2 * π / 180) * cos (lat1 * π / 180) *
          sin ((lon1 - lon2) * π / 180 / 2) * sin ((lon1 - lon2) * π / 180 / 2)))
        (sqrt (1 - (sin ((lat1 - lat2) * π / 180 / 2) * sin ((lat1 - lat2) * π / 180 / 2) +
          cos (lat2 * π / 180) * cos (lat1 * π / 180) *
          sin ((lon1 - lon2) * π / 180 / 2) * sin ((lon1 - lon2) * π / 180 / 2)))))
    have hA : sin ((lat1 - lat2) * π / 180 / 2) * sin ((lat1 - lat2) * π / 180 / 2) +
        cos (lat2 * π / 180) * cos (lat1 * π / 180) *
        sin ((lon1 - lon2) * π / 180 / 2) * sin ((lon1 - lon2) * π / 180 / 2) =
        sin ((lat2 - lat1) * π / 180 / 2) * sin ((lat2 - lat1) * π / 180 / 2) +
        cos (lat1 * π / 180) * cos (lat2 * π / 180) *
        sin ((lon2 - lon1) * π / 180 / 2) * sin ((lon2 - lon1) * π / 180 / 2) := by
      have h1 : (lat1 - lat2) * π / 180 / 2 = -((lat2 - lat1) * π / 180 / 2) := by ring
      have h2 : (lon1 - lon2) * π / 180 / 2 = -((lon2 - lon1) * π / 180 / 2) := by ring
      rw [h1, h2, Real.sin_neg, Real.sin_neg]
      ring
    rw [hA]
  · show 6371 * (2 * atan2
        (sqrt (sin ((lat1 - lat1) * π / 180 / 2) * sin ((lat1 - lat1) * π / 180 / 2) +
          cos (lat1 * π / 180) * cos (lat1 * π / 180) *
          sin ((lon1 - lon1) * π / 180 / 2) * sin ((lon1 - lon1) * π / 180 / 2)))
        (sqrt (1 - (sin ((lat1 - lat1) * π / 180 / 2) * sin ((lat1 - lat1) * π / 180 / 2) +
          cos (lat1 * π / 180) * cos (lat1 * π / 180) *
          sin ((lon1 - lon1) * π / 180 / 2) * sin ((lon1 - lon1) * π / 180 / 2))))) = 0
    have h0 : (lat1 - lat1) * π / 180 / 2 = 0 := by ring
    have h0' : (lon1 - lon1) * π / 180 / 2 = 0 := by ring
    rw [h0, h0', Real.sin_zero]
    have hz : (0 : ℝ) * 0 + cos (lat1 * π / 180) * cos (lat1 * π / 180) * 0 * 0 = 0 := by ring
    rw [hz, Real.sqrt_zero, sub_zero, Real.sqrt_one]
    have ha : atan2 0 1 = 0 := by
      rw [atan2, if_pos (by norm_num : (0 : ℝ) < 1)]
      simp [Real.arctan_zero]
    rw [ha]
    ring

/-! ### Reconciliation merge lemmas -/

theorem replaceWith_none (m : List Outage) (o : Outage)
    (hf : m.find? (fun s => decide (s.id = o.id)) = none) : replaceWith m o = o := by
  simp [replaceWith, hf]

theorem replaceWith_some (m : List Outage) (o sv : Outage)
    (hf : m.find? (fun s => decide (s.id = o.id)) = some sv) :
    replaceWith m o = { sv with synced := true } := by
  simp [replaceWith, hf]

theorem replaceWith_id (m : List Outage) (o : Outage) : (replaceWith m o).id = o.id := by
  simp only [replaceWith]
  split
  · next sv hf =>
    have hsv := List.find?_some hf
    have hsv2 : sv.id = o.id := by simpa using hsv
    exact hsv2
  · rfl

theorem outage_set_synced_eq_self (o : Outage) (h : o.synced = true) :
    { o with synced := true } = o := by
  cases o
  simp_all

theorem replaceWith_idem (m : List Outage) (o : Outage) :
    replaceWith m (replaceWith m o) = replaceWith m o := by
  cases hf : m.find? (fun s => decide (s.id = o.id)) with
  | none => rw [replaceWith_none m o hf, replaceWith_none m o hf]
  | some sv =>
    have h1 := replaceWith_some m o sv hf
    rw [h1]
    have hsv := List.find?_some hf
    have hsv2 : sv.id = o.id := by simpa using hsv
    have hid : ({ sv with synced := true } : Outage).id = o.id := hsv2
    have hpred : (fun s : Outage => decide (s.id = ({ sv with synced := true } : Outage).id)) =
        (fun s : Outage => decide (s.id = o.id)) := funext fun s => by rw [hid]
    have h2 : m.find? (fun s => decide (s.id = ({ sv with synced := true } : Outage).id)) =
        some sv := by rw [hpred]; exact hf
    rw [replaceWith_some m _ sv h2]

theorem find?_self_of_nodup_ids (m : List Outage)
    (hnd : (m.map fun o => o.id).Nodup) (x : Outage) (hx : x ∈ m) :
    m.find? (fun s => decide (s.id = x.id)) = some x := by
  induction m with
  | nil => cases hx
  | cons a t ih =>
    rw [List.map_cons, List.nodup_cons] at hnd
    rcases List.mem_cons.mp hx with rfl | hxt
    · simp [List.find?]
    · have hne : ¬ (a.id = x.id) := fun he =>
        hnd.1 (he ▸ List.mem_map_of_mem (fun o => o.id) hxt)
      rw [List.find?_cons_of_neg _ (by simpa using hne)]
      exact ih hnd.2 hxt

theorem mem_mergeOutages_cases (loc m : List Outage) (x : Outage)
    (hx : x ∈ mergeOutages loc m) :
    (∃ o ∈ loc, x = replaceWith m o) ∨ x ∈ m := by
  rcases List.mem_append.mp hx with hl | hr
  · rcases List.mem_map.mp hl with ⟨o, ho, heq⟩
    exact Or.inl ⟨o, ho, heq.symm⟩
  · exact Or.inr (List.mem_of_mem_filter hr)

theorem mem_ids_mergeOutages (loc m : List Outage) (s : Outage) (hs : s ∈ m) :
    s.id ∈ (mergeOutages loc m).map fun o => o.id := by
  by_cases hid : s.id ∈ loc.map fun o => o.id
  · rcases List.mem_map.mp hid with ⟨o, ho, heq⟩
    have hmem : replaceWith m o ∈ mergeOutages loc m :=
      List.mem_append_left _ (List.mem_map_of_mem (replaceWith m) ho)
    have hidmem : (replaceWith m o).id ∈ (mergeOutages loc m).map fun o => o.id :=
      List.mem_map_of_mem (fun o => o.id) hmem
    rwa [replaceWith_id, heq] at hidmem
  · have hmem : s ∈ mergeOutages loc m :=
      List.mem_append_right _ (List.mem_filter.mpr ⟨hs, decide_eq_true hid⟩)
    exact List.mem_map_of_mem _ hmem

/-- Core of reconciliation idempotence: merging a merged collection
again with the same remote snapshot changes nothing, provided the
remote records carry pairwise distinct ids and are marked synced (as
every record produced by `remoteToLocal` is). -/
theorem mergeOutages_merge_self (loc m : List Outage)
    (hnd : (m.map fun o => o.id).Nodup) (hsync : ∀ x ∈ m, x.synced = true) :
    mergeOutages (mergeOutages loc m) m = mergeOutages loc m := by
  have hfix : ∀ x ∈ mergeOutages loc m, replaceWith m x = x := by
    intro x hx
    rcases mem_mergeOutages_cases loc m x hx with ⟨o, _, rfl⟩ | hxm
    · exact replaceWith_idem m o
    · rw [replaceWith_some m x x (find?_self_of_nodup_ids m hnd x hxm)]
      exact outage_set_synced_eq_self x (hsync x hxm)
  show (mergeOutages loc m).map (replaceWith m) ++
      m.filter (fun s => decide (s.id ∉ (mergeOutages loc m).map fun o => o.id)) =
      mergeOutages loc m
  rw [List.map_congr_left hfix, List.map_id']
  rw [List.filter_eq_nil_iff.mpr fun s hs => by
    simpa using mem_ids_mergeOutages loc m s hs]
  exact List.append_nil _

/-! ### C2: the reconciliation merge matches its specification -/

/-- Reconciliation merge as the specification words it: every local
record whose identifier matches a remote record is replaced by the
remote version marked `synced = true`; every remote record whose
identifier matches no local record is appended; local records with no
remote counterpart are kept. Spec-side definition, to be compared with
`mergeOutages` from the source. -/
def mergeSpec (loc remote : List Outage) : List Outage :=
  (loc.map fun o =>
    match remote.find? (fun s => decide (s.id = o.id)) with
    | some sv => { sv with synced := true }
    | none => o) ++
  (remote.filter fun s => decide (∀ o ∈ loc, o.id ≠ s.id))

theorem mergeOutages_eq_mergeSpec (loc mapped : List Outage) :
    mergeOutages loc mapped = mergeSpec loc mapped := by
  show loc.map (replaceWith mapped) ++
      mapped.filter (fun s => decide (s.id ∉ loc.map fun o => o.id)) =
    (loc.map fun o =>
      match mapped.find? (fun s => decide (s.id = o.id)) with
      | some sv => { sv with synced := true }
      | none => o) ++
    (mapped.filter fun s => decide (∀ o ∈ loc, o.id ≠ s.id))
  congr 1
  exact List.filter_congr fun s _ => decide_eq_decide.mpr (by simp [List.mem_map])

/-- C2. The reconciliation merge agrees with the spec's description:
matched local records are replaced by the synced remote version,
unmatched remote records are appended (this also covers the documented
Scenario D duplicate: a local record with a different temporary id is
kept by the third conjunct while the remote twin is appended by the
fourth), unmatched local records are kept, every mapped remote record
is already synced, and the pass stores exactly this merge. -/
theorem reconciliation_merge_spec (loc mapped : List Outage)
    (serv : List OutageData) (now : Int) :
    mergeOutages loc mapped = mergeSpec loc mapped ∧
    (∀ o ∈ loc, ∀ sv, mapped.find? (fun s => decide (s.id = o.id)) = some sv →
      ({ sv with synced := true } : Outage) ∈ mergeOutages loc mapped) ∧
    (∀ o ∈ loc, mapped.find? (fun s => decide (s.id = o.id)) = none →
      o ∈ mergeOutages loc mapped) ∧
    (∀ sv ∈ mapped, sv.id ∉ (loc.map fun o => o.id) → sv ∈ mergeOutages loc mapped) ∧
    (∀ r : OutageData, (remoteToLocal now r).synced = true) ∧
    (∀ s : StoreState, (fetchFromAppwrite s serv now).outages =
      mergeOutages s.outages (serv.map (remoteToLocal now))) := by
  refine ⟨mergeOutages_eq_mergeSpec loc mapped, ?_, ?_, ?_, fun _ => rfl, fun _ => rfl⟩
  · intro o ho sv hf
    have h1 := replaceWith_some mapped o sv hf
    have h2 : replaceWith mapped o ∈ mergeOutages loc mapped :=
      List.mem_append_left _ (List.mem_map_of_mem (replaceWith mapped) ho)
    rwa [h1] at h2
  · intro o ho hf
    have h1 := replaceWith_none mapped o hf
    have h2 : replaceWith mapped o ∈ mergeOutages loc mapped :=
      List.mem_append_left _ (List.mem_map_of_mem (replaceWith mapped) ho)
    rwa [h1] at h2
  · intro sv hsv h
    exact List.mem_append_right _ (List.mem_filter.mpr ⟨hsv, decide_eq_true h⟩)

/-- C2 witness: the source merge and the spec-side merge agree on a
concrete pair of collections. -/
theorem reconciliation_merge_spec_witness :
    mergeOutages [cexOutage] [] = mergeSpec [cexOutage] [] :=
  (reconciliation_merge_spec [cexOutage] [] [] 0).1

/-! ### C5: reconciliation idempotence -/

/-- C5. Running the reconciliation pass twice against the same remote
snapshot produces the same store state as running it once. The
hypothesis that the remote ids are pairwise distinct reflects the
uniqueness of document ids in the remote collection. -/
theorem reconcile_idempotent (s : StoreState) (serv : List OutageData) (now : Int)
    (h : (serv.map fun r => r.id).Nodup) :
    applyOp (applyOp s (Op.reconcile serv now)) (Op.reconcile serv now) =
      applyOp s (Op.reconcile serv now) := by
  have hids : ((serv.map (remoteToLocal now)).map fun o => o.id) =
      serv.map fun r => r.id := by
    rw [List.map_map]; rfl
  have hnd : ((serv.map (remoteToLocal now)).map fun o => o.id).Nodup := by
    rw [hids]; exact h
  have hsync : ∀ x ∈ serv.map (remoteToLocal now), x.synced = true := by
    intro x hx
    rcases List.mem_map.mp hx with ⟨r, _, rfl⟩
    rfl
  simp only [applyOp, fetchFromAppwrite]
  rw [show (saveOutages s (mergeOutages s.outages (serv.map (remoteToLocal now)))).outages =
    mergeOutages s.outages (serv.map (remoteToLocal now)) from rfl]
  rw [mergeOutages_merge_self _ _ hnd hsync]
  rfl

/-- A concrete remote record for witnesses. -/
def witServRecord : OutageData :=
  { id := "b"
    type := "water"
    latitude := 0
    longitude := 0
    quartier := "q"
    ville := "v"
    region := "r"
    confirmations := 1
    photoUri := none
    estRetablie := false
    dateRetablissement := none
    createdAt := some 0
    userId := "u" }

/-- C5 witness: two passes over a concrete one-record remote snapshot
coincide with one pass. -/
theorem reconcile_idempotent_witness :
    (([witServRecord].map fun r => r.id).Nodup) ∧
    applyOp (applyOp (StoreState.mk [] [] [] []) (Op.reconcile [witServRecord] 0))
        (Op.reconcile [witServRecord] 0) =
      applyOp (StoreState.mk [] [] [] []) (Op.reconcile [witServRecord] 0) :=
  ⟨by decide, reconcile_idempotent (StoreState.mk [] [] [] []) [witServRecord] 0 (by decide)⟩

/-! ### C4: confirmation counts (corrected) -/

/-- Remote-payload sanity for the count invariant: records consumed by
a reconcile pass or a successful add carry nonnegative counts. -/
def opConfOk : Op → Bool
  | .add _ (some created) _ _ => decide (0 ≤ created.confirmations)
  | .reconcile serv _ => serv.all fun r => decide (0 ≤ r.confirmations)
  | _ => true

/-- Operations that never lower a count and never drop or overwrite a
record: everything except removal and reconciliation. -/
def opMono : Op → Bool
  | .add _ _ _ _ => true
  | .confirm _ _ => true
  | .restore _ _ => true
  | .remove _ => false
  | .reconcile _ _ => false

theorem remoteToLocal_conf_ge_one (now : Int) (r : OutageData)
    (h : 0 ≤ r.confirmations) : 1 ≤ (remoteToLocal now r).confirmations := by
  show (1 : Int) ≤ if r.confirmations = 0 then 1 else r.confirmations
  split
  · exact le_refl 1
  · omega

theorem inv_applyOp (s : StoreState) (op : Op) (hok : opConfOk op = true)
    (hinv : ∀ o ∈ s.outages, 1 ≤ o.confirmations) :
    ∀ o ∈ (applyOp s op).outages, 1 ≤ o.confirmations := by
  cases op with
  | add input remote now rnd =>
    intro o ho
    rcases List.mem_cons.mp ho with rfl | hmem
    · cases remote with
      | none => exact le_refl 1
      | some created =>
        exact remoteToLocal_conf_ge_one now created (of_decide_eq_true hok)
    · exact hinv o hmem
  | confirm today id =>
    intro o ho
    have heq := confirmOutage_eq s today id
    have ho2 : o ∈ ((confirmOutage s today id).2).outages := ho
    by_cases hg : objGet id s.confirmedIds = some today
    · rw [if_pos hg] at heq; rw [heq] at ho2; exact hinv o ho2
    · rw [if_neg hg] at heq; rw [heq] at ho2
      rcases List.mem_map.mp ho2 with ⟨o0, ho0, rfl⟩
      have h0 := hinv o0 ho0
      by_cases hid : o0.id = id
      · rw [if_pos hid]; show (1 : Int) ≤ o0.confirmations + 1; omega
      · rw [if_neg hid]; exact h0
  | restore id now =>
    intro o ho
    rcases List.mem_map.mp ho with ⟨o0, ho0, rfl⟩
    have h0 := hinv o0 ho0
    by_cases hid : o0.id = id
    · rw [if_pos hid]; exact h0
    · rw [if_neg hid]; exact h0
  | remove id =>
    intro o ho
    exact hinv o (List.mem_of_mem_filter ho)
  | reconcile serv now =>
    intro o ho
    have hm : ∀ x ∈ serv.map (remoteToLocal now), 1 ≤ x.confirmations := by
      intro x hx
      rcases List.mem_map.mp hx with ⟨r, hr, rfl⟩
      exact remoteToLocal_conf_ge_one now r
        (of_decide_eq_true (List.all_eq_true.mp hok r hr))
    rcases mem_mergeOutages_cases s.outages (serv.map (remoteToLocal now)) o ho with
      ⟨o0, ho0, rfl⟩ | hom
    · cases hf : (serv.map (remoteToLocal now)).find? (fun s2 => decide (s2.id = o0.id)) with
      | none => rw [replaceWith_none _ _ hf]; exact hinv o0 ho0
      | some sv =>
        rw [replaceWith_some _ _ _ hf]
        exact hm sv (List.mem_of_find?_eq_some hf)
    · exact hm o hom

theorem inv_applyOps (s : StoreState) (ops : List Op)
    (hok : ∀ op ∈ ops, opConfOk op = true)
    (hinv : ∀ o ∈ s.outages, 1 ≤ o.confirmations) :
    ∀ o ∈ (applyOps s ops).outages, 1 ≤ o.confirmations := by
  induction ops generalizing s with
  | nil => exact hinv
  | cons op rest ih =>
    exact ih (applyOp s op)
      (fun op2 h2 => hok op2 (List.mem_cons_of_mem op h2))
      (inv_applyOp s op (hok op (List.mem_cons_self op rest)) hinv)

theorem mono_applyOp (s : StoreState) (op : Op) (hm : opMono op = true) :
    ∀ o ∈ s.outages, ∃ o2 ∈ (applyOp s op).outages,
      o2.id = o.id ∧ o.confirmations ≤ o2.confirmations := by
  cases op with
  | add input remote now rnd =>
    intro o ho
    exact ⟨o, List.mem_cons_of_mem _ ho, rfl, le_refl _⟩
  | confirm today id =>
    intro o ho
    have heq := confirmOutage_eq s today id
    by_cases hg : objGet id s.confirmedIds = some today
    · rw [if_pos hg] at heq
      refine ⟨o, ?_, rfl, le_refl _⟩
      show o ∈ ((confirmOutage s today id).2).outages
      rw [heq]; exact ho
    · rw [if_neg hg] at heq
      refine ⟨if o.id = id then { o with confirmations := o.confirmations + 1 } else o,
        ?_, ?_, ?_⟩
      · show _ ∈ ((confirmOutage s today id).2).outages
        rw [heq]
        exact List.mem_map_of_mem _ ho
      · split <;> rfl
      · split
        · show o.confirmations ≤ o.confirmations + 1; omega
        · exact le_refl _
  | restore id now =>
    intro o ho
    refine ⟨if o.id = id then
      { o with estRetablie := true, dateRetablissement := some now } else o, ?_, ?_, ?_⟩
    · exact List.mem_map_of_mem _ ho
    · split <;> rfl
    · split <;> exact le_refl _
  | remove id => simp [opMono] at hm
  | reconcile serv now => simp [opMono] at hm

theorem mono_applyOps (s : StoreState) (ops : List Op)
    (hm : ∀ op ∈ ops, opMono op = true) :
    ∀ o ∈ s.outages, ∃ o2 ∈ (applyOps s ops).outages,
      o2.id = o.id ∧ o.confirmations ≤ o2.confirmations := by
  induction ops generalizing s with
  | nil => intro o ho; exact ⟨o, ho, rfl, le_refl _⟩
  | cons op rest ih =>
    intro o ho
    rcases mono_applyOp s op (hm op (List.mem_cons_self op rest)) o ho with
      ⟨o1, h1, hid1, hc1⟩
    rcases ih (applyOp s op) (fun op2 h2 => hm op2 (List.mem_cons_of_mem op h2)) o1 h1 with
      ⟨o2, h2, hid2, hc2⟩
    exact ⟨o2, h2, hid2.trans hid1, hc1.trans hc2⟩

/-- C4 (amended). After any operation sequence whose remote payloads
carry nonnegative counts, every record keeps `confirmations ≥ 1`; and
along a sequence free of removal and reconciliation, every record
persists with the same id and a count that never decreases. (A
reconciliation pass may replace a count by the lower remote value, as
the counterexample shows.) -/
theorem confirmations_invariant (s : StoreState) (ops : List Op)
    (hok : ∀ op ∈ ops, opConfOk op = true)
    (hinv : ∀ o ∈ s.outages, 1 ≤ o.confirmations) :
    (∀ o ∈ (applyOps s ops).outages, 1 ≤ o.confirmations) ∧
    ((∀ op ∈ ops, opMono op = true) →
      ∀ o ∈ s.outages, ∃ o2 ∈ (applyOps s ops).outages,
        o2.id = o.id ∧ o.confirmations ≤ o2.confirmations) :=
  ⟨inv_applyOps s ops hok hinv, fun hm => mono_applyOps s ops hm⟩

/-- C4 witness: a concrete confirm on a one-record state keeps the
invariant. -/
theorem confirmations_invariant_witness :
    (∀ op ∈ [Op.confirm "d" "a"], opConfOk op = true) ∧
    (∀ o ∈ (StoreState.mk [cexOutage] [] [cexOutage] []).outages, 1 ≤ o.confirmations) ∧
    (∀ o ∈ (applyOps (StoreState.mk [cexOutage] [] [cexOutage] [])
        [Op.confirm "d" "a"]).outages, 1 ≤ o.confirmations) :=
  ⟨by decide, by decide,
   (confirmations_invariant (StoreState.mk [cexOutage] [] [cexOutage] [])
     [Op.confirm "d" "a"] (by decide) (by decide)).1⟩

/-- A concrete remote record whose count is lower than the local
record's and which is not resolved, used by the counterexamples. -/
def cexRemote : OutageData :=
  { id := "a"
    type := "water"
    latitude := 0
    longitude := 0
    quartier := "q"
    ville := "v"
    region := "r"
    confirmations := 1
    photoUri := none
    estRetablie := false
    dateRetablissement := none
    createdAt := some 0
    userId := "u" }

/-- C4 counterexample: a reconciliation pass against a remote snapshot
whose count is 1 lowers a local count of 2, so counts do not only ever
increase over sequences that include reconciliation. -/
theorem confirmations_monotone_cex :
    ¬ (∀ o ∈ (StoreState.mk [cexOutage] [] [cexOutage] []).outages,
        ∃ o2 ∈ (applyOp (StoreState.mk [cexOutage] [] [cexOutage] [])
            (Op.reconcile [cexRemote] 0)).outages,
          o2.id = o.id ∧ o.confirmations ≤ o2.confirmations) := by
  decide

/-! ### C6: resolved is terminal (corrected) -/

/-- Operations that cannot introduce an unresolved record carrying the
watched id: reconciliation is excluded (the remote copy may be
unresolved), and an add must not produce a record with that id. -/
def opKeepsResolved (i : String) : Op → Bool
  | .add input remote now rnd => !((newOutageOf input remote now rnd).id == i)
  | .reconcile _ _ => false
  | _ => true

theorem resolved_applyOp (i : String) (s : StoreState) (op : Op)
    (hop : opKeepsResolved i op = true)
    (h : ∀ o ∈ s.outages, o.id = i → o.estRetablie = true) :
    ∀ o ∈ (applyOp s op).outages, o.id = i → o.estRetablie = true := by
  cases op with
  | add input remote now rnd =>
    intro o ho hid
    rcases List.mem_cons.mp ho with rfl | hmem
    · exfalso
      simp [opKeepsResolved] at hop
      exact hop hid
    · exact h o hmem hid
  | confirm today id =>
    intro o ho hid
    have heq := confirmOutage_eq s today id
    have ho2 : o ∈ ((confirmOutage s today id).2).outages := ho
    by_cases hg : objGet id s.confirmedIds = some today
    · rw [if_pos hg] at heq; rw [heq] at ho2; exact h o ho2 hid
    · rw [if_neg hg] at heq; rw [heq] at ho2
      rcases List.mem_map.mp ho2 with ⟨o0, ho0, rfl⟩
      have hres : ((if o0.id = id then
          { o0 with confirmations := o0.confirmations + 1 } else o0) : Outage).estRetablie =
          o0.estRetablie := by split <;> rfl
      have hidq : ((if o0.id = id then
          { o0 with confirmations := o0.confirmations + 1 } else o0) : Outage).id =
          o0.id := by split <;> rfl
      rw [hres]
      exact h o0 ho0 (hidq ▸ hid)
  | restore id now =>
    intro o ho hid
    rcases List.mem_map.mp ho with ⟨o0, ho0, rfl⟩
    by_cases hid0 : o0.id = id
    · rw [if_pos hid0]
    · rw [if_neg hid0] at hid ⊢
      exact h o0 ho0 hid
  | remove id =>
    intro o ho hid
    exact h o (List.mem_of_mem_filter ho) hid
  | reconcile serv now => simp [opKeepsResolved] at hop

theorem resolved_applyOps (i : String) (s : StoreState) (ops : List Op)
    (hops : ∀ op ∈ ops, opKeepsResolved i op = true)
    (h : ∀ o ∈ s.outages, o.id = i → o.estRetablie = true) :
    ∀ o ∈ (applyOps s ops).outages, o.id = i → o.estRetablie = true := by
  induction ops generalizing s with
  | nil => exact h
  | cons op rest ih =>
    exact ih (applyOp s op)
      (fun op2 h2 => hops op2 (List.mem_cons_of_mem op h2))
      (resolved_applyOp i s op (hops op (List.mem_cons_self op rest)) h)

theorem markRestored_resolves (s : StoreState) (i : String) (now : Int) :
    ∀ o ∈ (markRestored s i now).outages, o.id = i → o.estRetablie = true := by
  intro o ho hid
  rcases List.mem_map.mp ho with ⟨o0, ho0, rfl⟩
  by_cases hid0 : o0.id = i
  · rw [if_pos hid0]
  · rw [if_neg hid0] at hid
    exact absurd hid hid0

theorem recent_excludes_resolved (s : StoreState) (now hours : Int) :
    ∀ o ∈ getRecentOutages s now hours, o.estRetablie = false := by
  intro o ho
  have hp := (List.mem_filter.mp ho).2
  rcases Bool.and_eq_true_iff.mp hp with ⟨_, h2⟩
  simpa using h2

theorem nearby_excludes_resolved (s : StoreState) (lat lon radius : ℝ) (now : Int) :
    ∀ o ∈ getNearbyOutages s lat lon radius now, o.estRetablie = false := by
  intro o ho
  have hp := (List.mem_filter.mp ho).2
  by_cases hres : o.estRetablie = true
  · rw [if_pos hres] at hp; cases hp
  · exact Bool.eq_false_iff.mpr hres

/-- C6 (amended). After `markRestored(id)`, along any subsequent
sequence of operations that contains no reconciliation pass and whose
adds do not reuse that id, every record with that id stays resolved,
and neither `getRecentOutages` nor `getNearbyOutages` ever returns a
record with that id. (A reconciliation pass whose remote copy is
unresolved reverts the flag, as the counterexample shows.) -/
theorem resolved_terminal (s : StoreState) (i : String) (nowR : Int) (ops : List Op)
    (hops : ∀ op ∈ ops, opKeepsResolved i op = true) :
    (∀ o ∈ (applyOps (markRestored s i nowR) ops).outages,
      o.id = i → o.estRetablie = true) ∧
    (∀ now hours : Int,
      ∀ o ∈ getRecentOutages (applyOps (markRestored s i nowR) ops) now hours, o.id ≠ i) ∧
    (∀ lat lon radius : ℝ, ∀ now : Int,
      ∀ o ∈ getNearbyOutages (applyOps (markRestored s i nowR) ops) lat lon radius now,
        o.id ≠ i) := by
  have hmain := resolved_applyOps i (markRestored s i nowR) ops hops
    (markRestored_resolves s i nowR)
  refine ⟨hmain, ?_, ?_⟩
  · intro now hours o ho hid
    have h1 := hmain o (List.mem_filter.mp ho).1 hid
    have h2 := recent_excludes_resolved _ now hours o ho
    rw [h1] at h2
    cases h2
  · intro lat lon radius now o ho hid
    have h1 := hmain o (List.mem_filter.mp ho).1 hid
    have h2 := nearby_excludes_resolved _ lat lon radius now o ho
    rw [h1] at h2
    cases h2

/-- C6 witness: after restoring a concrete record, a confirm call
keeps every record with that id resolved. -/
theorem resolved_terminal_witness :
    (∀ op ∈ [Op.confirm "d" "a"], opKeepsResolved "a" op = true) ∧
    (∀ o ∈ (applyOps (markRestored (StoreState.mk [cexOutage] [] [] []) "a" 5)
        [Op.confirm "d" "a"]).outages, o.id = "a" → o.estRetablie = true) :=
  ⟨by decide,
   (resolved_terminal (StoreState.mk [cexOutage] [] [] []) "a" 5
     [Op.confirm "d" "a"] (by decide)).1⟩

/-- C6 counterexample: a reconciliation pass whose remote copy of the
restored record is unresolved reverts the flag, and the record shows
up again in the recent query. -/
theorem resolved_terminal_cex :
    ((applyOp (markRestored (StoreState.mk [cexOutage] [] [] []) "a" 5)
        (Op.reconcile [cexRemote] 0)).outages.map fun o => (o.id, o.estRetablie)) =
      [("a", false)] ∧
    ¬ (∀ o ∈ getRecentOutages
        (applyOp (markRestored (StoreState.mk [cexOutage] [] [] []) "a" 5)
          (Op.reconcile [cexRemote] 0)) 0 24, o.id ≠ "a") := by
  constructor
  · decide
  · decide

end CoupureAlert
